import Mathlib

/-!
Shallow embedding of `src/task.py` (an address-book assistant built on
`collections.UserDict` and `datetime.date`), together with the CPython
`datetime` primitives the script calls: proleptic-Gregorian ordinals
(`date.toordinal` / `date.fromordinal`), `date.weekday`, `date.replace`,
`datetime.strptime` with the fixed format `"%d.%m.%Y"`, and `str.isdigit`.

Python exceptions are modelled with `Except String` (the string is the
`ValueError` message); functions that mutate an object and may also raise
return the mutated state alongside the outcome, matching Python semantics
where a raised exception does not undo prior mutations.
-/

set_option autoImplicit false

namespace Task

/-- A calendar date, mirroring the `(year, month, day)` fields of a CPython
`datetime.date`. -/
structure Ymd where
  year : Nat
  month : Nat
  day : Nat
  deriving DecidableEq, Repr

/-- CPython `_is_leap`: divisible by 4 and (not by 100 unless by 400). -/
def isLeapYear (y : Nat) : Bool :=
  y % 4 == 0 && (y % 100 != 0 || y % 400 == 0)

/-- CPython `_days_in_month` (for months 1..12). -/
def daysInMonth (y m : Nat) : Nat :=
  if m = 2 then (if isLeapYear y then 29 else 28)
  else if m = 4 ∨ m = 6 ∨ m = 9 ∨ m = 11 then 30
  else 31

/-- CPython `_days_before_month`: days in year `y` preceding month `m`. -/
def daysBeforeMonth (y : Nat) : Nat → Nat
  | 0 => 0
  | 1 => 0
  | m + 2 => daysBeforeMonth y (m + 1) + daysInMonth y (m + 1)

/-- CPython `date.toordinal`: `_days_before_year(year) + _days_before_month +
day`, with day 1 of year 1 having ordinal 1. -/
def ymd2ord (d : Ymd) : Nat :=
  365 * (d.year - 1) + (d.year - 1) / 4 - (d.year - 1) / 100 + (d.year - 1) / 400
    + daysBeforeMonth d.year d.month + d.day

/-- Core of CPython `_ord2ymd`, applied to the four block quotients and the
day offset within the year: special-case the trailing Dec 31 of a leap
year, otherwise locate the month with the `(n + 50) >> 5` guess.  CPython
computes `preceding` from its `_DAYS_BEFORE_MONTH` table plus a leap bit
derived from `n1`, `n4`, `n100`; that value equals
`daysBeforeMonth year month`, which is used directly here.  The round-trip
theorem `ymd2ord_ord2ymd` below certifies the translation. -/
def ord2ymdAux (n400 n100 n4 n1 nn : Nat) : Ymd :=
  let year := n400 * 400 + n100 * 100 + n4 * 4 + n1 + 1
  if n1 = 4 ∨ n100 = 4 then ⟨year - 1, 12, 31⟩
  else
    let month := (nn + 50) / 32
    if daysBeforeMonth year month > nn then
      ⟨year, month - 1, nn - daysBeforeMonth year (month - 1) + 1⟩
    else
      ⟨year, month, nn - daysBeforeMonth year month + 1⟩

/-- CPython `_ord2ymd` (the algorithm behind `date.fromordinal`): peel off
400-, 100-, 4- and 1-year blocks with divmod, then finish in
`ord2ymdAux`. -/
def ord2ymd (o : Nat) : Ymd :=
  let n := o - 1
  ord2ymdAux (n / 146097) (n % 146097 / 36524) (n % 146097 % 36524 / 1461)
    (n % 146097 % 36524 % 1461 / 365) (n % 146097 % 36524 % 1461 % 365)

/-- CPython `date.weekday`: `(toordinal() + 6) % 7`, Monday = 0. -/
def weekday (d : Ymd) : Nat := (ymd2ord d + 6) % 7

/-- Python `date` comparison (`<`): lexicographic on `(year, month, day)`. -/
def dateLt (a b : Ymd) : Bool :=
  a.year < b.year
    || (a.year == b.year
        && (a.month < b.month || (a.month == b.month && a.day < b.day)))

/-- A date is a valid CPython `datetime.date`: year in `MINYEAR..MAXYEAR`,
month in 1..12, day in 1..days-in-month. -/
def validYmd (d : Ymd) : Prop :=
  1 ≤ d.year ∧ d.year ≤ 9999 ∧ 1 ≤ d.month ∧ d.month ≤ 12
    ∧ 1 ≤ d.day ∧ d.day ≤ daysInMonth d.year d.month

instance (d : Ymd) : Decidable (validYmd d) := by
  unfold validYmd; infer_instance

/-- CPython `_DAYS_BEFORE_MONTH` table (non-leap years), indexed 1..12. -/
def dbmTable : Nat → Nat
  | 1 => 0
  | 2 => 31
  | 3 => 59
  | 4 => 90
  | 5 => 120
  | 6 => 151
  | 7 => 181
  | 8 => 212
  | 9 => 243
  | 10 => 273
  | 11 => 304
  | 12 => 334
  | _ => 0

/-! ## `datetime.strptime` with format `"%d.%m.%Y"`

CPython `_strptime` compiles the format to the regex
`(3[01]|[12]\d|0[1-9]|[1-9])\.(1[0-2]|0[1-9]|[1-9])\.(\d\d\d\d)` and
requires it to consume the whole input; `%d` and `%m` therefore accept one
or two digits (zero padding optional), `%Y` exactly four digits.  A
two-digit day/month alternative never backtracks into the one-digit one,
because the following literal `.` cannot be a digit, so the parse below is
deterministic.  `datetime` construction then validates the day against the
month length and the year against `MINYEAR = 1`. -/

/-- Value of an ASCII decimal digit. -/
def toDigit (c : Char) : Option Nat :=
  if 48 ≤ c.toNat ∧ c.toNat ≤ 57 then some (c.toNat - 48) else none

/-- Parse `%d`/`%m`: a two-digit value in `1..maxv`, or a single digit
`1..9`. -/
def parseNum12 (maxv : Nat) : List Char → Option (Nat × List Char)
  | [] => none
  | [c] =>
    match toDigit c with
    | some a => if 1 ≤ a then some (a, []) else none
    | none => none
  | c1 :: c2 :: rest =>
    match toDigit c1, toDigit c2 with
    | some a, some b =>
        if 1 ≤ 10 * a + b ∧ 10 * a + b ≤ maxv then some (10 * a + b, rest)
        else if 1 ≤ a then some (a, c2 :: rest) else none
    | some a, none => if 1 ≤ a then some (a, c2 :: rest) else none
    | none, _ => none

/-- Parse `%Y`: exactly four digits. -/
def parseYear4 : List Char → Option (Nat × List Char)
  | c1 :: c2 :: c3 :: c4 :: rest =>
    match toDigit c1, toDigit c2, toDigit c3, toDigit c4 with
    | some a, some b, some c, some d => some (1000 * a + 100 * b + 10 * c + d, rest)
    | _, _, _, _ => none
  | _ => none

/-- `datetime.strptime(s, "%d.%m.%Y").date()`: `none` models the
`ValueError` raised on a failed parse or an invalid calendar date. -/
def strptimeDMY (s : String) : Option Ymd :=
  match parseNum12 31 s.data with
  | some (d, '.' :: r2) =>
    match parseNum12 12 r2 with
    | some (m, '.' :: r3) =>
      match parseYear4 r3 with
      | some (y, []) => if 1 ≤ y ∧ d ≤ daysInMonth y m then some ⟨y, m, d⟩ else none
      | _ => none
    | _ => none
  | _ => none

/-- Character for decimal digit `k < 10`. -/
def dchar (k : Nat) : Char := Char.ofNat (48 + k)

/-- `date.strftime("%d.%m.%Y")` for the dates this program emits: `%d` and
`%m` zero-padded to width 2, `%Y` rendered as four digits (every date the
program formats has year in 1000..9999, where all platforms agree). -/
def strftimeDMY (d : Ymd) : String :=
  ⟨[dchar (d.day / 10 % 10), dchar (d.day % 10), '.',
    dchar (d.month / 10 % 10), dchar (d.month % 10), '.',
    dchar (d.year / 1000 % 10), dchar (d.year / 100 % 10), dchar (d.year / 10 % 10),
    dchar (d.year % 10)]⟩

/-- Spec-side definition (for comparison with the code): the strict
zero-padded pattern `day(2).month(2).year(4)`, returning the denoted
components when the text matches. -/
def strictShape (s : String) : Option Ymd :=
  match s.data with
  | [d1, d2, '.', m1, m2, '.', y1, y2, y3, y4] =>
    match toDigit d1, toDigit d2, toDigit m1, toDigit m2,
        toDigit y1, toDigit y2, toDigit y3, toDigit y4 with
    | some a, some b, some c, some e, some f, some g, some h, some i =>
        some ⟨1000 * f + 100 * g + 10 * h + i, 10 * c + e, 10 * a + b⟩
    | _, _, _, _, _, _, _, _ => none
  | _ => none

/-! ## The classes of `task.py` -/

/-- Models CPython `str.isdigit`'s per-character test on the Unicode digit
ranges used in this development: ASCII digits, the Latin-1 superscripts
`¹ ² ³`, Arabic-Indic and extended Arabic-Indic digits, Devanagari digits,
superscript and subscript digits, and fullwidth digits.  (CPython accepts
every character with Numeric_Type Digit or Decimal; the remaining ranges
do not occur in this file.) -/
def pyIsDigitChar (c : Char) : Bool :=
  (48 ≤ c.toNat && c.toNat ≤ 57)
  || c.toNat == 0xB9 || c.toNat == 0xB2 || c.toNat == 0xB3
  || (0x660 ≤ c.toNat && c.toNat ≤ 0x669)
  || (0x6F0 ≤ c.toNat && c.toNat ≤ 0x6F9)
  || (0x966 ≤ c.toNat && c.toNat ≤ 0x96F)
  || c.toNat == 0x2070 || (0x2074 ≤ c.toNat && c.toNat ≤ 0x2079)
  || (0x2080 ≤ c.toNat && c.toNat ≤ 0x2089)
  || (0xFF10 ≤ c.toNat && c.toNat ≤ 0xFF19)

/-- Python `str.isdigit`: nonempty and every character a digit. -/
def pyIsDigit (s : String) : Bool := !s.data.isEmpty && s.data.all pyIsDigitChar

/-- An ASCII decimal digit `0`-`9` (the spec's "decimal digit"). -/
def isAsciiDigit (c : Char) : Bool := 48 ≤ c.toNat && c.toNat ≤ 57

/-- `Phone` (a `Field` holding the validated number string). -/
structure Phone where
  value : String
  deriving DecidableEq, Repr

/-- `Phone.__init__`: `ValueError` unless `number.isdigit()` and
`len(number) == 10`. -/
def phoneInit (number : String) : Except String Phone :=
  if ¬ pyIsDigit number = true ∨ number.length ≠ 10 then
    .error "Phone number must be 10 digits"
  else .ok ⟨number⟩

/-- `Birthday` (a `Field` holding the raw accepted string; `__str__`
returns it unchanged). -/
structure Birthday where
  value : String
  deriving DecidableEq, Repr

/-- `Birthday.__init__`: parse with `strptime("%d.%m.%Y")` and reject dates
after `today`; both the parse failure and the in-the-future `ValueError`
are caught by the `except ValueError` and re-raised with the fixed format
message. -/
def birthdayInit (today : Ymd) (value : String) : Except String Birthday :=
  match strptimeDMY value with
  | none => .error "Invalid date format. Use DD.MM.YYYY"
  | some date_obj =>
    if dateLt today date_obj then .error "Invalid date format. Use DD.MM.YYYY"
    else .ok ⟨value⟩

/-- `Record`: a name, a list of phones, an optional birthday. -/
structure Record where
  name : String
  phones : List Phone
  birthday : Option Birthday
  deriving DecidableEq, Repr

/-- `Record.find_phone`: first phone whose `value` equals `number`. -/
def find_phone (r : Record) (number : String) : Option Phone :=
  r.phones.find? (fun phone => phone.value == number)

/-- Python `list.remove(x)`: drop the first element equal to `x`.  (The
`Phone` objects in `task.py` compare by identity, and the object passed in
is the first value-match found by `find_phone`, so removing the first
structural match is removal of that same element.) -/
def removeFirst : List Phone → Phone → List Phone
  | [], _ => []
  | p :: rest, q => if p = q then rest else p :: removeFirst rest q

/-- `Record.remove_phone`.  Mirrors the source's control flow faithfully:
when the number IS found, the phone is removed and then
`ValueError(f"Phone number {number} not found")` is raised (the `raise`
sits inside the `if phone:` branch, after the removal); when the number is
absent, nothing happens and no error is raised.  Returns the record state
after the call together with the raised message, if any. -/
def remove_phone (r : Record) (number : String) : Record × Option String :=
  match find_phone r number with
  | some phone =>
      ({ r with phones := removeFirst r.phones phone },
       some ("Phone number " ++ number ++ " not found"))
  | none => (r, none)

/-- `Record.add_phone`: append `Phone(number)`; a validation failure leaves
the record untouched. -/
def add_phone (r : Record) (number : String) : Except String Record :=
  match phoneInit number with
  | .ok p => .ok { r with phones := r.phones ++ [p] }
  | .error e => .error e

/-- `Record.edit_phone`: if `old_number` is found, `add_phone(new_number)`
then `remove_phone(old_number)` then return `"phone changed"`; otherwise
raise.  Returns the record state after the call and the outcome. -/
def edit_phone (r : Record) (old_number new_number : String) :
    Record × Except String String :=
  match find_phone r old_number with
  | some _ =>
      match add_phone r new_number with
      | .error e => (r, .error e)
      | .ok r1 =>
          match remove_phone r1 old_number with
          | (r2, some e) => (r2, .error e)
          | (r2, none) => (r2, .ok "phone changed")
  | none => (r, .error ("Phone number " ++ old_number ++ " not found"))

/-- `AddressBook.data`: a Python dict keyed by name, in insertion order. -/
abbrev AddressBook := List (String × Record)

/-- Python dict assignment `self.data[k] = v`: overwrite in place if the
key exists, else append. -/
def dictSet : AddressBook → String → Record → AddressBook
  | [], k, v => [(k, v)]
  | (k0, v0) :: rest, k, v =>
      if k0 = k then (k0, v) :: rest else (k0, v0) :: dictSet rest k v

/-- Python `dict.get(k, None)`. -/
def dictGet : AddressBook → String → Option Record
  | [], _ => none
  | (k0, v0) :: rest, k => if k0 = k then some v0 else dictGet rest k

/-- `AddressBook.add_record`: `self.data[record.name.value] = record`. -/
def add_record (book : AddressBook) (record : Record) : AddressBook :=
  dictSet book record.name record

/-- `AddressBook.find`: `self.data.get(name, None)`. -/
def find (book : AddressBook) (name : String) : Option Record :=
  dictGet book name

/-- `date.replace(year=y)`: rebuild the date, revalidating; `ValueError`
when `y` is outside `MINYEAR..MAXYEAR` or the day exceeds the month length
in year `y` (e.g. Feb 29 into a non-leap year). -/
def replaceYear (d : Ymd) (y : Nat) : Except String Ymd :=
  if y < 1 ∨ 9999 < y then .error "year is out of range"
  else if d.day ≤ daysInMonth y d.month then .ok ⟨y, d.month, d.day⟩
  else .error "day is out of range for month"

/-- The `birthday_this_year` computation inside `get_upcoming_birthdays`:
`replace(year=today.year)`, re-replaced into `today.year + 1` when the
first result is before `today`. -/
def occurrence (today bd : Ymd) : Except String Ymd :=
  match replaceYear bd today.year with
  | .error e => .error e
  | .ok bty => if dateLt bty today then replaceYear bd (today.year + 1) else .ok bty

/-- `AddressBook.adjust_for_weekend`: dates with `weekday() >= 5` shift
forward by `7 - weekday()` days (via `date + timedelta`); weekdays pass
through unchanged. -/
def adjust_for_weekend (birthday : Ymd) : Ymd :=
  if weekday birthday ≥ 5 then ord2ymd (ymd2ord birthday + (7 - weekday birthday))
  else birthday

/-- One emitted entry of `get_upcoming_birthdays` (`congratulation_date`
already `strftime`-formatted, as in the source). -/
structure UEntry where
  name : String
  congratulation_date : String
  deriving DecidableEq, Repr

/-- The loop of `AddressBook.get_upcoming_birthdays` over the dict values
in insertion order; a `ValueError` escaping the loop aborts the whole
call.  `(birthday_this_year - today).days` is the ordinal difference. -/
def upcomingGo (today : Ymd) (days : Int) :
    List (String × Record) → Except String (List UEntry)
  | [] => .ok []
  | (_, record) :: rest =>
    match record.birthday with
    | none => upcomingGo today days rest
    | some b =>
      match strptimeDMY b.value with
      | none => .error "time data does not match format"
      | some birthday_date =>
        match occurrence today birthday_date with
        | .error e => .error e
        | .ok birthday_this_year =>
          if 0 ≤ (ymd2ord birthday_this_year : Int) - (ymd2ord today : Int)
              ∧ (ymd2ord birthday_this_year : Int) - (ymd2ord today : Int) ≤ days then
            match upcomingGo today days rest with
            | .error e => .error e
            | .ok l =>
                .ok ({ name := record.name,
                       congratulation_date :=
                         strftimeDMY (adjust_for_weekend birthday_this_year) } :: l)
          else upcomingGo today days rest

/-- `AddressBook.get_upcoming_birthdays(days)` with `date.today()` passed
explicitly. -/
def get_upcoming_birthdays (book : AddressBook) (today : Ymd) (days : Int) :
    Except String (List UEntry) :=
  upcomingGo today days book

/-- The list a caller of `get_upcoming_birthdays` receives: the payload of
a successful call, nothing from a raised error. -/
def exceptList (x : Except String (List UEntry)) : List UEntry :=
  match x with
  | .ok l => l
  | .error _ => []

/-- Handler `add_contact` under the `input_error` decorator, applied to a
two-element `args` list `[name, phone]` (the tuple unpack then succeeds).
Returns the reply string and the book afterwards.  The `Record` object
added to the book by `add_record` is the same object `add_phone` then
mutates, so a failed phone validation still leaves the freshly created
empty record inside the book. -/
def add_contact (name phone : String) (book : AddressBook) :
    String × AddressBook :=
  match find book name with
  | some record =>
      match add_phone record phone with
      | .ok r1 => ("Contact added or updated.", dictSet book name r1)
      | .error e => ("Error: " ++ e, book)
  | none =>
      let record : Record := { name := name, phones := [], birthday := none }
      let book1 := add_record book record
      match add_phone record phone with
      | .ok r1 => ("Contact added or updated.", dictSet book1 name r1)
      | .error e => ("Error: " ++ e, book1)

/-! ## Helper lemmas shared between claims -/

theorem isLeapYear_iff (y : Nat) :
    isLeapYear y = true ↔ (y % 4 = 0 ∧ (y % 100 ≠ 0 ∨ y % 400 = 0)) := by
  simp [isLeapYear]

theorem daysBeforeMonth_eq (y m : Nat) (h1 : 1 ≤ m) (h2 : m ≤ 12) :
    daysBeforeMonth y m
      = dbmTable m + (if 3 ≤ m ∧ isLeapYear y = true then 1 else 0) := by
  rcases hL : isLeapYear y with _ | _ <;>
    interval_cases m <;>
    simp [daysBeforeMonth, daysInMonth, dbmTable, hL]

theorem dbmTable_div (m : Nat) (h1 : 1 ≤ m) (h2 : m ≤ 12) :
    dbmTable m = (367 * m - 362) / 12 - (if m ≤ 2 then 0 else 2) := by
  interval_cases m <;> decide

theorem daysBeforeMonth_div (y m L : Nat) (h1 : 1 ≤ m) (h2 : m ≤ 12)
    (hL : (if isLeapYear y = true then 1 else 0) = L) :
    daysBeforeMonth y m
      = (367 * m - 362) / 12 - (if m ≤ 2 then 0 else 2) + (if 3 ≤ m then L else 0) := by
  rw [daysBeforeMonth_eq y m h1 h2, dbmTable_div m h1 h2]
  rcases hb : isLeapYear y with _ | _ <;> rw [hb] at hL <;> simp at hL <;> subst hL <;>
    by_cases h3 : 3 ≤ m <;> simp [h3, hb]

set_option maxHeartbeats 1000000 in
/-- Core round-trip lemma: `ymd2ord` inverts `ord2ymdAux` on any canonical
block decomposition of `n - 1`. -/
theorem ymd2ord_ord2ymdAux (n n400 n100 n4 n1 nn : Nat)
    (hsum : n = 146097 * n400 + 36524 * n100 + 1461 * n4 + 365 * n1 + nn + 1)
    (b400 : 36524 * n100 + 1461 * n4 + 365 * n1 + nn < 146097)
    (b100 : 1461 * n4 + 365 * n1 + nn < 36524)
    (b4 : 365 * n1 + nn < 1461)
    (b1 : nn < 365) :
    ymd2ord (ord2ymdAux n400 n100 n4 n1 nn) = n := by
  simp only [ord2ymdAux]
  set year := n400 * 400 + n100 * 100 + n4 * 4 + n1 + 1 with hyear
  set month := (nn + 50) / 32 with hmonth
  clear_value year month
  split
  · -- trailing Dec 31 of the leap year closing a 4- or 400-year block
    rename_i hspecial
    rcases hLb : isLeapYear (year - 1) with _ | _ <;>
      · have hiff := isLeapYear_iff (year - 1)
        rw [hLb] at hiff
        simp at hiff
        simp [ymd2ord, daysBeforeMonth, daysInMonth, hLb]
        rcases hspecial with hs | hs
        · have hnn0 : nn = 0 := by omega
          have e1 : (year - 1 - 1) / 4 = 100 * n400 + 25 * n100 + n4 := by omega
          have e2 : (year - 1 - 1) / 100 = 4 * n400 + n100 := by omega
          have e3 : (year - 1 - 1) / 400 = n400 := by omega
          omega
        · have hr : n4 = 0 ∧ n1 = 0 ∧ nn = 0 := by omega
          have hy : year = 400 * n400 + 401 := by omega
          have e1 : (year - 1 - 1) / 4 = 100 * n400 + 99 := by omega
          have e2 : (year - 1 - 1) / 100 = 4 * n400 + 3 := by omega
          have e3 : (year - 1 - 1) / 400 = n400 := by omega
          omega
  · rename_i hspecial
    push_neg at hspecial
    have hb : n100 ≤ 3 ∧ n4 ≤ 24 ∧ n1 ≤ 3 := by omega
    have e1 : (year - 1) / 4 = 100 * n400 + 25 * n100 + n4 := by omega
    have e2 : (year - 1) / 100 = 4 * n400 + n100 := by omega
    have e3 : (year - 1) / 400 = n400 := by omega
    have base : 365 * (year - 1) + (year - 1) / 4 - (year - 1) / 100 + (year - 1) / 400
        = 146097 * n400 + 36524 * n100 + 1461 * n4 + 365 * n1 := by omega
    have hm1 : 1 ≤ month := by omega
    have hm12 : month ≤ 12 := by omega
    rcases hLb : isLeapYear year with _ | _
    · have hdmM := daysBeforeMonth_div year month 0 hm1 hm12 (by simp [hLb])
      split
      · rename_i hover
        have h0 : daysBeforeMonth year 1 = 0 := rfl
        have hm2 : 2 ≤ month := by
          by_contra hc
          have hm1e : month = 1 := by omega
          rw [hm1e] at hover
          omega
        have hdmM1 :=
          daysBeforeMonth_div year (month - 1) 0 (by omega) (by omega) (by simp [hLb])
        simp only [ymd2ord]
        rw [hdmM1]
        split_ifs <;> omega
      · rename_i hover
        simp only [ymd2ord]
        rw [hdmM] at hover ⊢
        split_ifs at hover ⊢ <;> omega
    · have hdmM := daysBeforeMonth_div year month 1 hm1 hm12 (by simp [hLb])
      split
      · rename_i hover
        have h0 : daysBeforeMonth year 1 = 0 := rfl
        have hm2 : 2 ≤ month := by
          by_contra hc
          have hm1e : month = 1 := by omega
          rw [hm1e] at hover
          omega
        have hdmM1 :=
          daysBeforeMonth_div year (month - 1) 1 (by omega) (by omega) (by simp [hLb])
        simp only [ymd2ord]
        rw [hdmM1]
        split_ifs <;> omega
      · rename_i hover
        simp only [ymd2ord]
        rw [hdmM] at hover ⊢
        split_ifs at hover ⊢ <;> omega

set_option maxHeartbeats 1000000 in
/-- `date.fromordinal` inverts `date.toordinal`: converting an ordinal to
year/month/day and back is the identity.  This certifies that `ord2ymd`
really is the date with ordinal `n`. -/
theorem ymd2ord_ord2ymd (n : Nat) (h : 1 ≤ n) : ymd2ord (ord2ymd n) = n := by
  simp only [ord2ymd]
  exact ymd2ord_ord2ymdAux n _ _ _ _ _ (by omega) (by omega) (by omega) (by omega)
    (by omega)



theorem pyIsDigitChar_ascii (c : Char) (h : c.toNat < 128) :
    pyIsDigitChar c = isAsciiDigit c := by
  rw [Bool.eq_iff_iff]
  simp only [pyIsDigitChar, isAsciiDigit, Bool.or_eq_true, Bool.and_eq_true,
    decide_eq_true_eq, beq_iff_eq]
  omega

theorem phoneInit_error (s : String) (h : pyIsDigit s = false ∨ s.length ≠ 10) :
    phoneInit s = .error "Phone number must be 10 digits" := by
  unfold phoneInit
  split
  · rfl
  · rename_i hc
    push_neg at hc
    rcases h with h | h
    · simp [h] at hc
    · exact absurd hc.2 h

theorem dictGet_dictSet (book : AddressBook) (k : String) (v : Record) :
    dictGet (dictSet book k v) k = some v := by
  induction book with
  | nil => simp [dictSet, dictGet]
  | cons p rest ih =>
    obtain ⟨k0, v0⟩ := p
    by_cases hk : k0 = k <;> simp [dictSet, dictGet, hk, ih]

/-! ## C1 -/

/-- C1 (code bug): `Record.remove_phone` inverts the documented behavior.
On a record holding "1234567890", removing "1234567890" deletes the phone
and then raises `ValueError("Phone number 1234567890 not found")`; removing
the absent "0987654321" silently does nothing and raises no error. -/
theorem c1_remove_phone_bug :
    remove_phone ⟨"A", [⟨"1234567890"⟩], none⟩ "1234567890"
        = (⟨"A", [], none⟩, some "Phone number 1234567890 not found")
      ∧ remove_phone ⟨"A", [⟨"1234567890"⟩], none⟩ "0987654321"
        = (⟨"A", [⟨"1234567890"⟩], none⟩, none) := by
  constructor <;> rfl

/-! ## C2 -/

/-- C2 (code bug): `Record.edit_phone` on a present `old` and valid `new`
does perform the replacement, but the call then raises
`ValueError("Phone number ... not found")` (propagated from the misplaced
raise in `remove_phone`), instead of succeeding; the
`return "phone changed"` line is unreachable. -/
theorem c2_edit_phone_bug :
    edit_phone ⟨"A", [⟨"1234567890"⟩], none⟩ "1234567890" "0987654321"
      = (⟨"A", [⟨"0987654321"⟩], none⟩,
         Except.error "Phone number 1234567890 not found") := by
  rfl

/-! ## C4 -/

/-- C4 counterexample: the string of ten SUPERSCRIPT TWO characters is not
made of ASCII decimal digits, yet `Phone` accepts it, because Python's
`str.isdigit` accepts any Unicode digit character. -/
theorem c4_phone_unicode_digit :
    phoneInit "²²²²²²²²²²" = .ok ⟨"²²²²²²²²²²"⟩
      ∧ "²²²²²²²²²²".length = 10
      ∧ ¬ "²²²²²²²²²²".data.all isAsciiDigit = true := by
  refine ⟨rfl, rfl, by decide⟩

/-- C4 (amended): for strings made of ASCII characters, `Phone` creation
succeeds iff the string has length exactly 10 and every character is an
ASCII decimal digit; strings containing non-ASCII Python digit characters
can also succeed (see the counterexample). -/
theorem c4_phone_ascii_iff (s : String)
    (h : s.data.all (fun c => decide (c.toNat < 128)) = true) :
    (∃ p, phoneInit s = .ok p)
      ↔ (s.length = 10 ∧ s.data.all isAsciiDigit = true) := by
  simp only [List.all_eq_true, decide_eq_true_eq] at h
  constructor
  · rintro ⟨p, hp⟩
    unfold phoneInit at hp
    split at hp
    · cases hp
    · rename_i hc
      push_neg at hc
      refine ⟨hc.2, ?_⟩
      have hd : pyIsDigit s = true := hc.1
      unfold pyIsDigit at hd
      simp only [Bool.and_eq_true, List.all_eq_true] at hd
      simp only [List.all_eq_true]
      intro c hcmem
      rw [← pyIsDigitChar_ascii c (h c hcmem)]
      exact hd.2 c hcmem
  · rintro ⟨hlen, hdig⟩
    simp only [List.all_eq_true] at hdig
    have hnil : s.data ≠ [] := by
      intro hcon
      have : s.length = 0 := by simp [String.length, hcon]
      omega
    have hp : pyIsDigit s = true := by
      unfold pyIsDigit
      rw [Bool.and_eq_true]
      constructor
      · cases hsd : s.data with
        | nil => exact absurd hsd hnil
        | cons a l => simp [hsd, List.isEmpty]
      · simp only [List.all_eq_true]
        intro c hcmem
        rw [pyIsDigitChar_ascii c (h c hcmem)]
        exact hdig c hcmem
    refine ⟨⟨s⟩, ?_⟩
    unfold phoneInit
    rw [if_neg]
    push_neg
    exact ⟨hp, hlen⟩

/-- Witness for C4 at a concrete input. -/
theorem c4_phone_ascii_iff_witness :
    ∃ p, phoneInit "1234567890" = .ok p :=
  (c4_phone_ascii_iff "1234567890" (by decide)).mpr (by decide)

/-! ## C6 -/

/-- C6 counterexample: with `old` absent and `new` invalid, `edit_phone`
raises the not-found `ValueError`, not the phone-validation error the
claim requires. -/
theorem c6_notfound_beats_validation :
    edit_phone ⟨"A", [], none⟩ "1234567890" "123"
        = (⟨"A", [], none⟩, .error "Phone number 1234567890 not found")
      ∧ ("Phone number 1234567890 not found" ≠ "Phone number must be 10 digits") := by
  refine ⟨rfl, by decide⟩

/-- C6 (amended): with `new` invalid, `edit_phone` always fails and the
phone list is unchanged afterwards; the propagated error is the
`ValidationError` exactly when `old` is present (when `old` is absent the
not-found check fires first). -/
theorem c6_edit_phone_invalid_new (r : Record) (old_number new_number : String)
    (h : pyIsDigit new_number = false ∨ new_number.length ≠ 10) :
    (edit_phone r old_number new_number).1.phones = r.phones
      ∧ (∃ e, (edit_phone r old_number new_number).2 = .error e)
      ∧ (find_phone r old_number ≠ none →
          (edit_phone r old_number new_number).2
            = .error "Phone number must be 10 digits") := by
  have hpi := phoneInit_error new_number h
  unfold edit_phone
  cases hf : find_phone r old_number <;> simp [hf, add_phone, hpi]

/-- Witness for C6 at a concrete input. -/
theorem c6_edit_phone_invalid_new_witness :
    (edit_phone ⟨"A", [⟨"1234567890"⟩], none⟩ "1234567890" "123").1.phones
        = [⟨"1234567890"⟩]
      ∧ (edit_phone ⟨"A", [⟨"1234567890"⟩], none⟩ "1234567890" "123").2
        = .error "Phone number must be 10 digits" := by
  have h := c6_edit_phone_invalid_new ⟨"A", [⟨"1234567890"⟩], none⟩ "1234567890" "123"
    (by decide)
  exact ⟨h.1, h.2.2 (by decide)⟩

/-! ## C9 -/

/-- C9: calling the `add` handler with a fresh name and an invalid phone
string returns an error string, yet afterwards the book contains a record
under that name with an empty phone list. -/
theorem c9_add_contact_partial_mutation (book : AddressBook) (name phone : String)
    (hfind : find book name = none)
    (hphone : pyIsDigit phone = false ∨ phone.length ≠ 10) :
    add_contact name phone book
        = ("Error: Phone number must be 10 digits",
           dictSet book name ⟨name, [], none⟩)
      ∧ find (dictSet book name ⟨name, [], none⟩) name = some ⟨name, [], none⟩ := by
  have hpi := phoneInit_error phone hphone
  constructor
  · unfold add_contact
    rw [hfind]
    simp [add_record, add_phone, hpi]
  · exact dictGet_dictSet book name ⟨name, [], none⟩

/-- Witness for C9 at a concrete input. -/
theorem c9_add_contact_partial_mutation_witness :
    add_contact "X" "123" []
        = ("Error: Phone number must be 10 digits",
           dictSet [] "X" ⟨"X", [], none⟩)
      ∧ find (dictSet [] "X" ⟨"X", [], none⟩) "X" = some ⟨"X", [], none⟩ :=
  c9_add_contact_partial_mutation [] "X" "123" rfl (by decide)

/-! ## C7 -/

/-- C7: `adjust_for_weekend` maps a Saturday to the date two days later, a
Sunday to the date one day later, leaves weekdays unchanged, and the
result of a weekend shift is always a Monday (`weekday = 0`). -/
theorem c7_adjust_for_weekend (d : Ymd) (hv : validYmd d) :
    (weekday d = 5 → adjust_for_weekend d = ord2ymd (ymd2ord d + 2))
      ∧ (weekday d = 6 → adjust_for_weekend d = ord2ymd (ymd2ord d + 1))
      ∧ (weekday d < 5 → adjust_for_weekend d = d)
      ∧ (5 ≤ weekday d → weekday (adjust_for_weekend d) = 0) := by
  obtain ⟨hy1, hy2, hm1, hm2, hd1, hd2⟩ := hv
  have hord : 1 ≤ ymd2ord d := by
    unfold ymd2ord
    omega
  refine ⟨?_, ?_, ?_, ?_⟩
  · intro h5
    unfold adjust_for_weekend
    rw [h5]
    norm_num
  · intro h6
    unfold adjust_for_weekend
    rw [h6]
    norm_num
  · intro hlt
    unfold adjust_for_weekend
    rw [if_neg (by omega)]
  · intro h5
    unfold adjust_for_weekend
    rw [if_pos h5]
    unfold weekday at h5 ⊢
    rw [ymd2ord_ord2ymd _ (by omega)]
    omega

/-- Witness for C7 at a concrete Saturday (2025-10-11). -/
theorem c7_adjust_for_weekend_witness :
    adjust_for_weekend ⟨2025, 10, 11⟩ = ord2ymd (ymd2ord ⟨2025, 10, 11⟩ + 2)
      ∧ weekday (adjust_for_weekend ⟨2025, 10, 11⟩) = 0 := by
  have h := c7_adjust_for_weekend ⟨2025, 10, 11⟩ (by decide)
  exact ⟨h.1 (by decide), h.2.2.2 (by decide)⟩

/-! ## C5 -/

theorem toDigit_dchar (k : Nat) (h : k < 10) : toDigit (dchar k) = some k := by
  interval_cases k <;> decide

theorem daysInMonth_le31 (y m : Nat) : daysInMonth y m ≤ 31 := by
  unfold daysInMonth
  split
  · split <;> omega
  · split <;> omega

theorem parseNum12_pad (v maxv : Nat) (rest : List Char)
    (h1 : 1 ≤ v) (h2 : v ≤ maxv) (hm : maxv ≤ 99) :
    parseNum12 maxv (dchar (v / 10 % 10) :: dchar (v % 10) :: rest)
      = some (v, rest) := by
  have e1 : toDigit (dchar (v / 10 % 10)) = some (v / 10 % 10) :=
    toDigit_dchar _ (by omega)
  have e2 : toDigit (dchar (v % 10)) = some (v % 10) := toDigit_dchar _ (by omega)
  simp only [parseNum12, e1, e2]
  have hv10 : 10 * (v / 10 % 10) + v % 10 = v := by omega
  rw [hv10, if_pos ⟨h1, h2⟩]

theorem parseYear4_pad (y : Nat) (rest : List Char) (hy : y ≤ 9999) :
    parseYear4 (dchar (y / 1000 % 10) :: dchar (y / 100 % 10) :: dchar (y / 10 % 10)
        :: dchar (y % 10) :: rest)
      = some (y, rest) := by
  have e1 : toDigit (dchar (y / 1000 % 10)) = some (y / 1000 % 10) :=
    toDigit_dchar _ (by omega)
  have e2 : toDigit (dchar (y / 100 % 10)) = some (y / 100 % 10) :=
    toDigit_dchar _ (by omega)
  have e3 : toDigit (dchar (y / 10 % 10)) = some (y / 10 % 10) :=
    toDigit_dchar _ (by omega)
  have e4 : toDigit (dchar (y % 10)) = some (y % 10) := toDigit_dchar _ (by omega)
  simp only [parseYear4, e1, e2, e3, e4]
  have : 1000 * (y / 1000 % 10) + 100 * (y / 100 % 10) + 10 * (y / 10 % 10) + y % 10
      = y := by omega
  rw [this]

theorem strptime_strftime (d : Ymd) (hv : validYmd d) :
    strptimeDMY (strftimeDMY d) = some d := by
  obtain ⟨hy1, hy2, hm1, hm2, hd1, hd2⟩ := hv
  have hd31 : d.day ≤ 31 := le_trans hd2 (daysInMonth_le31 d.year d.month)
  unfold strftimeDMY strptimeDMY
  rw [show (String.mk [dchar (d.day / 10 % 10), dchar (d.day % 10), '.',
      dchar (d.month / 10 % 10), dchar (d.month % 10), '.',
      dchar (d.year / 1000 % 10), dchar (d.year / 100 % 10), dchar (d.year / 10 % 10),
      dchar (d.year % 10)]).data
    = dchar (d.day / 10 % 10) :: dchar (d.day % 10) :: '.'
        :: dchar (d.month / 10 % 10) :: dchar (d.month % 10) :: '.'
        :: dchar (d.year / 1000 % 10) :: dchar (d.year / 100 % 10)
        :: dchar (d.year / 10 % 10) :: dchar (d.year % 10) :: [] from rfl]
  rw [parseNum12_pad d.day 31 _ hd1 hd31 (by omega)]
  simp only []
  rw [parseNum12_pad d.month 12 _ hm1 hm2 (by omega)]
  simp only []
  rw [parseYear4_pad d.year _ hy2]
  simp only []
  rw [if_pos ⟨hy1, hd2⟩]

theorem strictShape_strftime (d : Ymd) (hv : validYmd d) :
    strictShape (strftimeDMY d) = some d := by
  obtain ⟨y, m, dd⟩ := d
  obtain ⟨hy1, hy2, hm1, hm2, hd1, hd2⟩ := hv
  dsimp only at hy1 hy2 hm1 hm2 hd1 hd2
  have hd31 : dd ≤ 31 := le_trans hd2 (daysInMonth_le31 y m)
  have e1 := toDigit_dchar (dd / 10 % 10) (by omega)
  have e2 := toDigit_dchar (dd % 10) (by omega)
  have e3 := toDigit_dchar (m / 10 % 10) (by omega)
  have e4 := toDigit_dchar (m % 10) (by omega)
  have e5 := toDigit_dchar (y / 1000 % 10) (by omega)
  have e6 := toDigit_dchar (y / 100 % 10) (by omega)
  have e7 := toDigit_dchar (y / 10 % 10) (by omega)
  have e8 := toDigit_dchar (y % 10) (by omega)
  unfold strftimeDMY strictShape
  simp only []
  rw [e1, e2, e3, e4, e5, e6, e7, e8]
  simp only []
  rw [Option.some_inj]
  simp only [Ymd.mk.injEq]
  exact ⟨by omega, by omega, by omega⟩

/-- C5 counterexample: "1.01.2000" does not match the strict zero-padded
`DD.MM.YYYY` pattern, yet `Birthday` accepts it (CPython `strptime` lets
`%d`/`%m` match a single digit). -/
theorem c5_lenient_padding :
    strictShape "1.01.2000" = none
      ∧ birthdayInit ⟨2024, 6, 1⟩ "1.01.2000" = .ok ⟨"1.01.2000"⟩ := by
  constructor <;> rfl

/-- C5 (amended): every strictly zero-padded rendering of a valid date not
after `today` is accepted and stored verbatim (so it re-renders to exactly
the input), and it denotes that date under the strict pattern; strings the
lenient `%d.%m.%Y` parse rejects fail, and parsed dates after `today`
fail; but some non-strict strings also succeed (see counterexample). -/
theorem c5_birthday_roundtrip (today : Ymd) (raw : String) (d : Ymd) :
    (validYmd d → dateLt today d = false →
        birthdayInit today (strftimeDMY d) = .ok ⟨strftimeDMY d⟩
          ∧ strictShape (strftimeDMY d) = some d)
      ∧ (strptimeDMY raw = none →
          birthdayInit today raw = .error "Invalid date format. Use DD.MM.YYYY")
      ∧ (∀ d2, strptimeDMY raw = some d2 → dateLt today d2 = true →
          birthdayInit today raw = .error "Invalid date format. Use DD.MM.YYYY") := by
  refine ⟨?_, ?_, ?_⟩
  · intro hv hfut
    constructor
    · unfold birthdayInit
      rw [strptime_strftime d hv]
      dsimp only
      rw [hfut]
      rfl
    · exact strictShape_strftime d hv
  · intro hnone
    unfold birthdayInit
    rw [hnone]
  · intro d2 hsome hfut
    unfold birthdayInit
    rw [hsome]
    dsimp only
    rw [hfut]
    rfl

/-- Witness for C5 at concrete inputs. -/
theorem c5_birthday_roundtrip_witness :
    (birthdayInit ⟨2024, 6, 1⟩ (strftimeDMY ⟨2000, 1, 1⟩)
          = .ok ⟨strftimeDMY ⟨2000, 1, 1⟩⟩
        ∧ strictShape (strftimeDMY ⟨2000, 1, 1⟩) = some ⟨2000, 1, 1⟩)
      ∧ birthdayInit ⟨2024, 6, 1⟩ "nonsense"
          = .error "Invalid date format. Use DD.MM.YYYY"
      ∧ birthdayInit ⟨2024, 6, 1⟩ "01.01.2025"
          = .error "Invalid date format. Use DD.MM.YYYY" := by
  have h := c5_birthday_roundtrip ⟨2024, 6, 1⟩ "nonsense" ⟨2000, 1, 1⟩
  have h2 := c5_birthday_roundtrip ⟨2024, 6, 1⟩ "01.01.2025" ⟨2000, 1, 1⟩
  exact ⟨h.1 (by decide) (by decide), h.2.1 (by decide),
    h2.2.2 ⟨2025, 1, 1⟩ (by decide) (by decide)⟩

/-! ## C3 -/

theorem occurrence_ok (today d : Ymd) (hy1 : 1 ≤ today.year)
    (hy2 : today.year + 1 ≤ 9999)
    (h1 : d.day ≤ daysInMonth today.year d.month)
    (h2 : d.day ≤ daysInMonth (today.year + 1) d.month) :
    ∃ o, occurrence today d = .ok o := by
  unfold occurrence replaceYear
  rw [if_neg (show ¬(today.year < 1 ∨ 9999 < today.year) by omega)]
  rw [if_pos h1]
  simp only []
  split
  · rw [if_neg (show ¬(today.year + 1 < 1 ∨ 9999 < today.year + 1) by omega)]
    try rw [if_pos h2]
    exact ⟨_, rfl⟩
  · exact ⟨_, rfl⟩

/-- C3 counterexample: the Feb 29 birthday "29.02.2020" is accepted by
`Birthday` (2025-01-01 being "today"), yet `get_upcoming_birthdays` raises
`ValueError("day is out of range for month")` on it, because
`date.replace(year=2025)` rejects Feb 29 in a non-leap year. -/
theorem c3_upcoming_feb29_raises :
    birthdayInit ⟨2025, 1, 1⟩ "29.02.2020" = .ok ⟨"29.02.2020"⟩
      ∧ get_upcoming_birthdays [("Bob", ⟨"Bob", [], some ⟨"29.02.2020"⟩⟩)]
          ⟨2025, 1, 1⟩ 7
        = .error "day is out of range for month" := by
  constructor <;> rfl

/-- C3 (amended): when every stored birthday parses and its day number is
valid in both candidate target years (in particular, no Feb 29 birthday
meeting a non-leap year), `get_upcoming_birthdays` returns a list and no
error, and when additionally no record's occurrence falls inside the
window it returns the empty list.  (A Feb 29 birthday with a non-leap
target year instead raises `ValueError`, see the counterexample.) -/
theorem c3_upcoming_total (book : AddressBook) (today : Ymd) (days : Int)
    (hy1 : 1 ≤ today.year) (hy2 : today.year + 1 ≤ 9999)
    (hb : ∀ p ∈ book, ∀ b, (Prod.snd p).birthday = some b →
        ∃ d, strptimeDMY b.value = some d
          ∧ d.day ≤ daysInMonth today.year d.month
          ∧ d.day ≤ daysInMonth (today.year + 1) d.month) :
    ∃ l, get_upcoming_birthdays book today days = .ok l
      ∧ ((∀ p ∈ book, ∀ b, (Prod.snd p).birthday = some b →
            ∀ d, strptimeDMY b.value = some d →
            ∀ o, occurrence today d = .ok o →
              ¬(0 ≤ (ymd2ord o : Int) - (ymd2ord today : Int)
                ∧ (ymd2ord o : Int) - (ymd2ord today : Int) ≤ days)) → l = []) := by
  unfold get_upcoming_birthdays
  revert hb
  induction book with
  | nil => exact fun _ => ⟨[], rfl, fun _ => rfl⟩
  | cons p rest ih =>
    intro hb
    obtain ⟨l, hl, hle⟩ := ih (fun q hq => hb q (List.mem_cons_of_mem _ hq))
    obtain ⟨k, r⟩ := p
    cases hbd : r.birthday with
    | none =>
      refine ⟨l, ?_, ?_⟩
      · simp only [upcomingGo, hbd]
        exact hl
      · intro hno
        exact hle fun q hq => hno q (List.mem_cons_of_mem _ hq)
    | some b =>
      obtain ⟨d, hd, h1, h2⟩ := hb (k, r) (List.mem_cons_self _ _) b hbd
      obtain ⟨o, ho⟩ := occurrence_ok today d hy1 hy2 h1 h2
      by_cases hw : (0 ≤ (ymd2ord o : Int) - (ymd2ord today : Int)
          ∧ (ymd2ord o : Int) - (ymd2ord today : Int) ≤ days)
      · refine ⟨⟨r.name, strftimeDMY (adjust_for_weekend o)⟩ :: l, ?_, ?_⟩
        · simp only [upcomingGo, hbd, hd, ho]
          rw [if_pos hw, hl]
        · intro hno
          exact absurd hw (hno (k, r) (List.mem_cons_self _ _) b hbd d hd o ho)
      · refine ⟨l, ?_, ?_⟩
        · simp only [upcomingGo, hbd, hd, ho]
          rw [if_neg hw]
          exact hl
        · intro hno
          exact hle fun q hq => hno q (List.mem_cons_of_mem _ hq)

/-- Witness for C3 at a concrete input (a book whose single birthday is
outside the window). -/
theorem c3_upcoming_total_witness :
    ∃ l, get_upcoming_birthdays [("Ann", ⟨"Ann", [], some ⟨"01.06.2020"⟩⟩)]
        ⟨2025, 1, 1⟩ 7 = .ok l
      ∧ ((∀ p ∈ [("Ann", (⟨"Ann", [], some ⟨"01.06.2020"⟩⟩ : Record))],
            ∀ b, (Prod.snd p).birthday = some b →
            ∀ d, strptimeDMY b.value = some d →
            ∀ o, occurrence ⟨2025, 1, 1⟩ d = .ok o →
              ¬(0 ≤ (ymd2ord o : Int) - (ymd2ord (⟨2025, 1, 1⟩ : Ymd) : Int)
                ∧ (ymd2ord o : Int) - (ymd2ord (⟨2025, 1, 1⟩ : Ymd) : Int) ≤ 7)) →
          l = []) :=
  c3_upcoming_total [("Ann", ⟨"Ann", [], some ⟨"01.06.2020"⟩⟩)] ⟨2025, 1, 1⟩ 7
    (by decide) (by decide)
    (by
      intro p hp b hbb
      simp only [List.mem_singleton] at hp
      subst hp
      simp only at hbb
      cases hbb
      exact ⟨⟨2020, 6, 1⟩, by decide, by decide, by decide⟩)

/-! ## C8 -/

theorem upcomingGo_mono (today : Ymd) (w w2 : Int) (hw : w ≤ w2) :
    ∀ recs : List (String × Record), ∀ l,
      upcomingGo today w recs = .ok l →
      ∃ l2, upcomingGo today w2 recs = .ok l2 ∧ l.Sublist l2 := by
  intro recs
  induction recs with
  | nil =>
    intro l hl
    simp only [upcomingGo] at hl
    injection hl with hl
    subst hl
    exact ⟨[], rfl, List.Sublist.refl []⟩
  | cons p rest ih =>
    intro l hl
    obtain ⟨k, r⟩ := p
    simp only [upcomingGo] at hl ⊢
    cases hbd : r.birthday with
    | none =>
      rw [hbd] at hl
      simp only [] at hl ⊢
      exact ih l hl
    | some b =>
      rw [hbd] at hl
      simp only [] at hl ⊢
      cases hsp : strptimeDMY b.value with
      | none =>
        rw [hsp] at hl
        simp at hl
      | some bd =>
        rw [hsp] at hl
        simp only [] at hl ⊢
        cases ho : occurrence today bd with
        | error e2 =>
          rw [ho] at hl
          simp at hl
        | ok o =>
          rw [ho] at hl
          simp only [] at hl ⊢
          by_cases hc : (0 ≤ (ymd2ord o : Int) - (ymd2ord today : Int)
              ∧ (ymd2ord o : Int) - (ymd2ord today : Int) ≤ w)
          · rw [if_pos hc] at hl
            rw [if_pos (show (0 ≤ (ymd2ord o : Int) - (ymd2ord today : Int)
                ∧ (ymd2ord o : Int) - (ymd2ord today : Int) ≤ w2) from
              ⟨hc.1, le_trans hc.2 hw⟩)]
            cases hrest : upcomingGo today w rest with
            | error e2 =>
              rw [hrest] at hl
              simp at hl
            | ok lr =>
              rw [hrest] at hl
              simp only [] at hl
              injection hl with hl
              obtain ⟨l2, hl2, hsub⟩ := ih lr hrest
              rw [hl2]
              refine ⟨_, rfl, ?_⟩
              rw [← hl]
              exact hsub.cons₂ _
          · rw [if_neg hc] at hl
            obtain ⟨l2, hl2, hsub⟩ := ih l hl
            by_cases hc2 : (0 ≤ (ymd2ord o : Int) - (ymd2ord today : Int)
                ∧ (ymd2ord o : Int) - (ymd2ord today : Int) ≤ w2)
            · rw [if_pos hc2, hl2]
              exact ⟨_, rfl, hsub.cons _⟩
            · rw [if_neg hc2]
              exact ⟨l2, hl2, hsub⟩

/-- C8: `get_upcoming_birthdays` is monotone in the window size: an entry
returned for window `w` is also returned for any window `w2 > w`. -/
theorem c8_upcoming_monotone (book : AddressBook) (today : Ymd) (w w2 : Int)
    (hw : w < w2) (e : UEntry)
    (he : e ∈ exceptList (get_upcoming_birthdays book today w)) :
    e ∈ exceptList (get_upcoming_birthdays book today w2) := by
  unfold get_upcoming_birthdays at he ⊢
  cases hres : upcomingGo today w book with
  | error msg =>
    rw [hres] at he
    simp [exceptList] at he
  | ok l =>
    rw [hres] at he
    obtain ⟨l2, hl2, hsub⟩ := upcomingGo_mono today w w2 (le_of_lt hw) book l hres
    rw [hl2]
    simp only [exceptList] at he ⊢
    exact hsub.subset he

/-- Witness for C8 at a concrete input. -/
theorem c8_upcoming_monotone_witness :
    (⟨"Ann", "01.01.2025"⟩ : UEntry)
      ∈ exceptList (get_upcoming_birthdays
          [("Ann", ⟨"Ann", [], some ⟨"01.01.2020"⟩⟩)] ⟨2024, 12, 30⟩ 8) :=
  c8_upcoming_monotone [("Ann", ⟨"Ann", [], some ⟨"01.01.2020"⟩⟩)] ⟨2024, 12, 30⟩ 7 8
    (by decide) ⟨"Ann", "01.01.2025"⟩ (by decide)

/-! ## C10 -/

theorem parseNum12_pos (maxv : Nat) (l : List Char) (v : Nat) (r : List Char)
    (h : parseNum12 maxv l = some (v, r)) : 1 ≤ v := by
  unfold parseNum12 at h
  repeat' split at h
  all_goals simp_all

theorem strptimeDMY_day_pos (s : String) (d : Ymd) (h : strptimeDMY s = some d) :
    1 ≤ d.day := by
  unfold strptimeDMY at h
  split at h
  · rename_i dd r2 heq
    split at h
    · rename_i mv r3 heq2
      split at h
      · rename_i yv heq3
        split at h
        · injection h with h
          subst h
          simpa using parseNum12_pos 31 s.data dd _ heq
        · exact absurd h (by simp)
      · exact absurd h (by simp)
    · exact absurd h (by simp)
  · exact absurd h (by simp)

theorem occurrence_day (today bd o : Ymd) (h : occurrence today bd = .ok o) :
    o.day = bd.day ∧ 1 ≤ o.year := by
  unfold occurrence replaceYear at h
  by_cases hr1 : (today.year < 1 ∨ 9999 < today.year)
  · rw [if_pos hr1] at h
    simp at h
  · rw [if_neg hr1] at h
    by_cases hd1 : (bd.day ≤ daysInMonth today.year bd.month)
    · rw [if_pos hd1] at h
      simp only [] at h
      split at h
      · by_cases hr2 : (today.year + 1 < 1 ∨ 9999 < today.year + 1)
        · rw [if_pos hr2] at h
          simp at h
        · rw [if_neg hr2] at h
          by_cases hd2 : (bd.day ≤ daysInMonth (today.year + 1) bd.month)
          · try rw [if_pos hd2] at h
            injection h with h
            subst h
            refine ⟨rfl, ?_⟩
            dsimp only
            omega
          · rw [if_neg hd2] at h
            simp at h
      · injection h with h
        subst h
        refine ⟨rfl, ?_⟩
        dsimp only
        omega
    · rw [if_neg hd1] at h
      simp at h

theorem upcomingGo_bound (today : Ymd) (days : Int) :
    ∀ recs : List (String × Record), ∀ l, upcomingGo today days recs = .ok l →
      ∀ e ∈ l, ∃ c : Ymd, e.congratulation_date = strftimeDMY c
        ∧ (ymd2ord c : Int) ≤ (ymd2ord today : Int) + days + 2 := by
  intro recs
  induction recs with
  | nil =>
    intro l hl
    simp only [upcomingGo] at hl
    injection hl with hl
    subst hl
    intro e he
    simp at he
  | cons p rest ih =>
    intro l hl
    obtain ⟨k, r⟩ := p
    simp only [upcomingGo] at hl
    cases hbd : r.birthday with
    | none =>
      rw [hbd] at hl
      simp only [] at hl
      exact ih l hl
    | some b =>
      rw [hbd] at hl
      simp only [] at hl
      cases hsp : strptimeDMY b.value with
      | none =>
        rw [hsp] at hl
        simp at hl
      | some bd =>
        rw [hsp] at hl
        simp only [] at hl
        cases ho : occurrence today bd with
        | error e2 =>
          rw [ho] at hl
          simp at hl
        | ok o =>
          rw [ho] at hl
          simp only [] at hl
          by_cases hc : (0 ≤ (ymd2ord o : Int) - (ymd2ord today : Int)
              ∧ (ymd2ord o : Int) - (ymd2ord today : Int) ≤ days)
          · rw [if_pos hc] at hl
            cases hrest : upcomingGo today days rest with
            | error e2 =>
              rw [hrest] at hl
              simp at hl
            | ok lr =>
              rw [hrest] at hl
              simp only [] at hl
              injection hl with hl
              subst hl
              intro e he
              rcases List.mem_cons.mp he with he | he
              · subst he
                have hday : 1 ≤ o.day := by
                  have h1 := occurrence_day today bd o ho
                  have h2 := strptimeDMY_day_pos b.value bd hsp
                  omega
                have hyear : 1 ≤ o.year := (occurrence_day today bd o ho).2
                have hord1 : 1 ≤ ymd2ord o := by
                  unfold ymd2ord
                  omega
                have hbound : (ymd2ord (adjust_for_weekend o) : Int)
                    ≤ (ymd2ord today : Int) + days + 2 := by
                  unfold adjust_for_weekend
                  by_cases hw : weekday o ≥ 5
                  · rw [if_pos hw]
                    rw [ymd2ord_ord2ymd _ (by omega)]
                    unfold weekday at hw
                    have h7 : (7 : Nat) - weekday o ≤ 2 := by
                      unfold weekday
                      omega
                    omega
                  · rw [if_neg hw]
                    omega
                exact ⟨adjust_for_weekend o, rfl, hbound⟩
              · exact ih lr hrest e he
          · rw [if_neg hc] at hl
            exact ih l hl

/-- C10: the inclusive window test is applied to the unshifted occurrence
and the weekend shift only afterwards: every returned congratulation date
is the rendering of a date at most `days + 2` after `today`, and a
returned date can lie strictly more than `days` after `today` — a Saturday
occurrence exactly `days` out is emitted as the Monday `days + 2` out. -/
theorem c10_window_then_shift :
    (∀ (book : AddressBook) (today : Ymd) (days : Int) (e : UEntry),
        e ∈ exceptList (get_upcoming_birthdays book today days) →
        ∃ c : Ymd, e.congratulation_date = strftimeDMY c
          ∧ (ymd2ord c : Int) ≤ (ymd2ord today : Int) + days + 2)
      ∧ (get_upcoming_birthdays [("Sam", ⟨"Sam", [], some ⟨"04.01.2020"⟩⟩)]
            ⟨2025, 1, 2⟩ 2
          = .ok [⟨"Sam", strftimeDMY ⟨2025, 1, 6⟩⟩]
        ∧ ((ymd2ord (⟨2025, 1, 6⟩ : Ymd) : Int)
            > (ymd2ord (⟨2025, 1, 2⟩ : Ymd) : Int) + 2)) := by
  refine ⟨?_, by rfl, by decide⟩
  intro book today days e he
  unfold get_upcoming_birthdays at he
  cases hres : upcomingGo today days book with
  | error m =>
    rw [hres] at he
    simp [exceptList] at he
  | ok l =>
    rw [hres] at he
    simp only [exceptList] at he
    exact upcomingGo_bound today days book l hres e he

/-- Witness for C10 at a concrete input. -/
theorem c10_window_then_shift_witness :
    ∃ c : Ymd, (⟨"Sam", strftimeDMY ⟨2025, 1, 6⟩⟩ : UEntry).congratulation_date
        = strftimeDMY c
      ∧ (ymd2ord c : Int) ≤ (ymd2ord (⟨2025, 1, 2⟩ : Ymd) : Int) + 2 + 2 :=
  c10_window_then_shift.1 [("Sam", ⟨"Sam", [], some ⟨"04.01.2020"⟩⟩)]
    ⟨2025, 1, 2⟩ 2 ⟨"Sam", strftimeDMY ⟨2025, 1, 6⟩⟩ (by decide)

end Task
